import Mathlib

/-
  Verification development for the RapidReach operational scripts:
  - acceptance-test-runner.py  (MQTT-driven acceptance tests, Jira updates)
  - update-time-estimates.py   (keyword-based complexity tiers, 120h budget)
  - script/generate_updates.py (firmware packaging, VERSION parsing)
  - mqtt/scripts/test_mqtt_emqx.py (MQTT smoke-test client)

  Each Python construct is embedded shallowly: pure string/list/number
  manipulation becomes a Lean function; network effects (HTTP statuses,
  MQTT responses) become explicit parameters; Python floats are modelled
  by exact rationals with Python's round-half-to-even decimal rounding.
-/

namespace RapidReach

/-! ### String primitives shared by the scripts -/

/-- Python `str.lower()` on the ASCII strings these scripts use. -/
def lowerStr (s : String) : String := ⟨s.data.map Char.toLower⟩

/-- Python's `needle in hay` substring test, on character lists. -/
def isSubList (needle : List Char) : List Char → Bool
  | [] => needle.isEmpty
  | c :: rest => needle.isPrefixOf (c :: rest) || isSubList needle rest

/-- Python `needle in hay` on strings (plain, case-sensitive). -/
def pyIn (needle hay : String) : Bool := isSubList needle.data hay.data

/-- Case-insensitive substring occurrence:
`needle.lower() in hay.lower()` as used by the test runner. -/
def isSubCI (needle hay : String) : Bool :=
  isSubList (lowerStr needle).data (lowerStr hay).data

/-- Python `int(q)` (truncation toward zero) on a rational. -/
def pyInt (q : ℚ) : ℤ := if 0 ≤ q then ⌊q⌋ else ⌈q⌉

/-! ### acceptance-test-runner.py : test table and `run_test_case` -/

/-- One entry of the `TEST_CASES` table. -/
structure TestInfo where
  testName : String
  commands : List String
  expected : List String
  time_minutes : ℕ
deriving DecidableEq

/-- The `TEST_CASES` dictionary of acceptance-test-runner.py. -/
def testCases : List (String × TestInfo) :=
  [("RDP-179", ⟨"Test audio playback with CLI commands",
      ["rapidreach audio play /path/to/test.wav", "rapidreach audio status"],
      ["Playing", "Status:"], 5⟩),
   ("RDP-180", ⟨"Test volume control (0-100 range)",
      ["rapidreach audio volume 0", "rapidreach audio volume 50",
       "rapidreach audio volume 100", "rapidreach audio volume"],
      ["Volume set to", "Current volume:"], 3⟩),
   ("RDP-181", ⟨"Test mute/unmute functionality",
      ["rapidreach audio mute", "rapidreach audio status",
       "rapidreach audio unmute", "rapidreach audio status"],
      ["Muted", "Unmuted"], 3⟩),
   ("RDP-186", ⟨"Check battery status via CLI",
      ["rapidreach power battery", "rapidreach power status"],
      ["Battery:", "Level:", "%"], 2⟩),
   ("RDP-187", ⟨"Monitor charging state",
      ["rapidreach power charging"],
      ["Charging:", "Status:"], 2⟩),
   ("RDP-193", ⟨"Test WiFi connection and status",
      ["rapidreach network wifi status", "rapidreach network wifi scan"],
      ["WiFi", "Status:", "SSID:"], 3⟩),
   ("RDP-194", ⟨"Test Ethernet connectivity",
      ["rapidreach network ethernet status"],
      ["Ethernet", "Status:", "IP:"], 2⟩),
   ("RDP-195", ⟨"Test LTE modem connection",
      ["rapidreach network lte status", "rapidreach network lte signal"],
      ["LTE", "Status:", "Signal:"], 3⟩),
   ("RDP-200", ⟨"Test all LED colors and patterns",
      ["rapidreach led red on", "rapidreach led green on",
       "rapidreach led blue on", "rapidreach led all off",
       "rapidreach led red blink", "rapidreach led status"],
      ["LED", "on", "off", "blink"], 4⟩),
   ("RDP-201", ⟨"Test switch/button detection",
      ["rapidreach gpio read button1", "rapidreach gpio status"],
      ["GPIO", "State:", "Level:"], 3⟩),
   ("RDP-207", ⟨"Check system uptime",
      ["rapidreach system uptime"],
      ["Uptime:", "seconds", "minutes"], 1⟩),
   ("RDP-208", ⟨"Monitor CPU usage",
      ["rapidreach system cpu"],
      ["CPU:", "Usage:", "%"], 2⟩),
   ("RDP-209", ⟨"Check memory usage",
      ["rapidreach system memory"],
      ["Memory:", "Used:", "Free:", "KB"], 2⟩),
   ("RDP-210", ⟨"Test shell commands execution",
      ["help", "version", "rapidreach test"],
      ["Available commands:", "Version:", "Hello"], 2⟩),
   ("RDP-221", ⟨"Test MQTT connection",
      ["rapidreach mqtt status"],
      ["MQTT", "Connected", "Broker:"], 2⟩),
   ("RDP-222", ⟨"Test MQTT publish functionality",
      ["rapidreach mqtt publish test/topic \"Test message\""],
      ["Published", "Success"], 2⟩),
   ("RDP-223", ⟨"Test MQTT heartbeat",
      ["rapidreach mqtt heartbeat status"],
      ["Heartbeat", "Active", "Interval:"], 2⟩)]

/-- One loop iteration of `run_test_case`: how `test_passed` evolves given
the response text collected for one command.  Mirrors:
`if response: ... if not found_expected and test_info['expected']:
test_passed = False ... else: test_passed = False`. -/
def stepPassed (expected : List String) (passed : Bool) (response : String) : Bool :=
  if !response.isEmpty then
    if !(expected.any fun e => isSubCI e response) && !expected.isEmpty then
      false
    else
      passed
  else
    false

/-- `AcceptanceTestRunner.run_test_case`, with the response text collected
during each command's wait window supplied positionally (one entry of
`responses` per command; the loop body reads nothing else of the command). -/
def run_test_case (tc : TestInfo) (responses : List String) : Bool :=
  responses.foldl (fun p r => stepPassed tc.expected p r) true

/-! ### acceptance-test-runner.py : `update_jira_task` -/

/-- One Jira transition as returned by the transitions endpoint. -/
structure Transition where
  transName : String
  transId : String
deriving DecidableEq

/-- The network environment `update_jira_task` runs against: the HTTP
statuses and bodies the Jira endpoints would return. -/
structure JiraNet where
  worklogStatus : ℕ
  transitionsStatus : ℕ
  transitions : List Transition
  transitionPostStatus : ℕ
deriving DecidableEq

/-- Observable actions of one `update_jira_task` call: whether the worklog
POST succeeded (status 200/201), whether the transitions list was fetched,
and the id of the transition POSTed to move the issue to Done, if any. -/
structure JiraActions where
  worklogLogged : Bool
  transitionsFetched : Bool
  transitionPosted : Option String
deriving DecidableEq

/-- The search of the transitions list:
first transition with `transition['name'].lower() == 'done'`. -/
def findDoneTransition (ts : List Transition) : Option String :=
  (ts.find? fun t => lowerStr t.transName == "done").map Transition.transId

/-- `AcceptanceTestRunner.update_jira_task test_id passed time_minutes`,
network effects abstracted into `net`.  The worklog is always POSTed; the
transitions are fetched only when `passed`; the transition POST is sent
only when the fetch returned 200 and a Done transition was found. -/
def update_jira_task (passed : Bool) (net : JiraNet) : JiraActions :=
  ⟨net.worklogStatus == 200 || net.worklogStatus == 201,
   passed,
   if passed then
     if net.transitionsStatus == 200 then findDoneTransition net.transitions
     else none
   else none⟩

/-- The worklog payload's minute count: `f'{int(time_minutes)}m'` applied
to the argument `max(actual_time, 1)` passed by `run_all_tests`
(`actual_time` is the test's elapsed minutes). -/
def loggedMinutes (elapsed : ℚ) : ℤ := pyInt (max elapsed 1)

/-! ### update-time-estimates.py : keyword classification -/

/-- `simple_keywords` of update-time-estimates.py. -/
def simple_keywords : List String :=
  ["configuration", "basic", "simple", "flag", "status", "getter", "setter",
   "validation"]

/-- `complex_keywords` of update-time-estimates.py. -/
def complex_keywords : List String :=
  ["protocol", "security", "encryption", "parser", "handler", "manager",
   "system", "integration"]

/-- `very_complex_keywords` of update-time-estimates.py. -/
def very_complex_keywords : List String :=
  ["tls", "ssl", "authentication", "registration", "audio", "codec",
   "streaming"]

/-- The four complexity tiers of the script. -/
inductive Tier where
  | simple
  | medium
  | complex
  | veryComplex
deriving DecidableEq

/-- The initial categorization loop (lines 46-59): the task's summary is
lowercased, then the keyword lists are checked in the order very-complex,
complex, simple, with medium as the default. -/
def categorize (summary : String) : Tier :=
  if very_complex_keywords.any (fun k => pyIn k (lowerStr summary)) then
    Tier.veryComplex
  else if complex_keywords.any (fun k => pyIn k (lowerStr summary)) then
    Tier.complex
  else if simple_keywords.any (fun k => pyIn k (lowerStr summary)) then
    Tier.simple
  else
    Tier.medium

/-- The update loop's re-classification (lines 127-134), which directly
picks the hours to write back for the task. -/
def assignHours (summary : String) (sh mh ch vh : ℚ) : ℚ :=
  if very_complex_keywords.any (fun k => pyIn k (lowerStr summary)) then
    vh
  else if complex_keywords.any (fun k => pyIn k (lowerStr summary)) then
    ch
  else if simple_keywords.any (fun k => pyIn k (lowerStr summary)) then
    sh
  else
    mh

/-- Hours charged for a tier, given the four per-tier allocations. -/
def tierHours (t : Tier) (sh mh ch vh : ℚ) : ℚ :=
  match t with
  | Tier.simple => sh
  | Tier.medium => mh
  | Tier.complex => ch
  | Tier.veryComplex => vh

/-! ### update-time-estimates.py : 120-hour budget arithmetic

Python floats are modelled by exact rationals; Python's `round(x, 1)`
rounds to one decimal with ties to even. -/

/-- Round a rational to the nearest integer, ties to even
(the rounding of Python's `round`). -/
def rndHalfEven (q : ℚ) : ℤ :=
  if q - ⌊q⌋ < 1/2 then ⌊q⌋
  else if q - ⌊q⌋ = 1/2 then (if ⌊q⌋ % 2 = 0 then ⌊q⌋ else ⌊q⌋ + 1)
  else ⌊q⌋ + 1

/-- Python `round(q, 1)`. -/
def round1 (q : ℚ) : ℚ := (rndHalfEven (q * 10) : ℚ) / 10

/-- `estimated_total` (lines 68-71) for tier counts
`ns` simple, `nm` medium, `nc` complex, `nv` very complex. -/
def estimated_total (ns nm nc nv : ℕ) : ℚ :=
  (ns : ℚ) * (3/2) + (nm : ℚ) * (5/2) + (nc : ℚ) * (7/2) + (nv : ℚ) * (9/2)

/-- `scaling_factor = 120 / estimated_total if estimated_total > 0 else 1`. -/
def scaling_factor (ns nm nc nv : ℕ) : ℚ :=
  if 0 < estimated_total ns nm nc nv then 120 / estimated_total ns nm nc nv
  else 1

/-- `simple_hours = round(1.5 * scaling_factor, 1)`. -/
def simple_hours (ns nm nc nv : ℕ) : ℚ :=
  round1 ((3/2) * scaling_factor ns nm nc nv)

/-- `medium_hours = round(2.5 * scaling_factor, 1)`. -/
def medium_hours (ns nm nc nv : ℕ) : ℚ :=
  round1 ((5/2) * scaling_factor ns nm nc nv)

/-- `complex_hours = round(3.5 * scaling_factor, 1)`. -/
def complex_hours (ns nm nc nv : ℕ) : ℚ :=
  round1 ((7/2) * scaling_factor ns nm nc nv)

/-- `very_complex_hours = round(4.5 * scaling_factor, 1)`. -/
def very_complex_hours (ns nm nc nv : ℕ) : ℚ :=
  round1 ((9/2) * scaling_factor ns nm nc nv)

/-- `total_hours` (lines 112-115): counts times per-tier allocations. -/
def total_hours (ns nm nc nv : ℕ) : ℚ :=
  (ns : ℚ) * simple_hours ns nm nc nv + (nm : ℚ) * medium_hours ns nm nc nv +
  (nc : ℚ) * complex_hours ns nm nc nv + (nv : ℚ) * very_complex_hours ns nm nc nv

/-! ### update-time-estimates.py : HTTP failure handling -/

/-- Lines 28-30: the initial To Do search.  A non-200 status prints the
status and calls `exit(1)`; the script continues (result `some issues`)
only on status 200. -/
def searchTodo (status : ℕ) (issues : List String) : Option (List String) :=
  if status ≠ 200 then none else some issues

/-- The per-issue update loop (lines 122-155): every key is PUT in turn
regardless of earlier statuses; the outcome list records each key with
whether its PUT returned 204. -/
def updateResults (keys : List String) (status : String → ℕ) :
    List (String × Bool) :=
  keys.map fun k => (k, status k == 204)

/-- `success_count` accumulated by the update loop. -/
def updateSuccessCount (keys : List String) (status : String → ℕ) : ℕ :=
  keys.foldl (fun s k => if status k = 204 then s + 1 else s) 0

/-! ### script/generate_updates.py : board scan and VERSION parsing -/

/-- What the packager sees of one board directory under `build/`:
whether `rapidreach-fw/zephyr/zephyr.signed.bin` exists, and whether
`zephyr/zephyr.signed.bin` exists. -/
structure Board where
  boardName : String
  hasRapidFwBin : Bool
  hasPlainBin : Bool
deriving DecidableEq

/-- Which signed binary path the loop picks for a board. -/
inductive BinPath where
  | rapidFw
  | plain
deriving DecidableEq

/-- Lines 46-56: prefer `rapidreach-fw/zephyr/zephyr.signed.bin`, fall
back to `zephyr/zephyr.signed.bin`, otherwise skip the board. -/
def binChoice (b : Board) : Option BinPath :=
  if b.hasRapidFwBin then some BinPath.rapidFw
  else if b.hasPlainBin then some BinPath.plain
  else none

/-- The target filename pattern of line 58. -/
def targetFilename (board version : String) : String :=
  board ++ "_rapidreach-fw_" ++ version ++ ".bin"

/-- The version string of line 35 built from the `VERSION` descriptor's
values. -/
def versionString (major minor patch : String) : String :=
  "V" ++ major ++ "." ++ minor ++ "." ++ patch

/-- The copy loop (lines 42-61): names of the files copied into
`firmware_updates`, in board order; boards with no binary are skipped. -/
def preparedBinaries (boards : List Board) (version : String) : List String :=
  boards.filterMap fun b =>
    (binChoice b).map fun _ => targetFilename b.boardName version

/-- Python `line.strip()` restricted to the whitespace these files use. -/
def pyStrip (l : List Char) : List Char :=
  ((l.dropWhile Char.isWhitespace).reverse.dropWhile Char.isWhitespace).reverse

/-- Python `s.split("=")` on character lists: split at every `=`. -/
def splitEq : List Char → List (List Char)
  | [] => [[]]
  | c :: rest =>
    if c = '=' then [] :: splitEq rest
    else
      match splitEq rest with
      | [] => [[c]]
      | h :: t => (c :: h) :: t

/-- Result of parsing one VERSION line. -/
inductive LineParse where
  | bad
  | skip
  | entry (k v : List Char)
deriving DecidableEq

/-- Lines 31-33 for one line: `if "=" in line:
key, val = line.strip().split("=")`.  `bad` is the ValueError raised when
the split does not have exactly two parts. -/
def parseVersionLine (line : List Char) : LineParse :=
  if line.contains '=' then
    match splitEq (pyStrip line) with
    | [k, v] => LineParse.entry (pyStrip k) (pyStrip v)
    | _ => LineParse.bad
  else
    LineParse.skip

/-- Lines 29-33 over the whole file: `none` models the unhandled
ValueError; `some kvs` the association list `version_vars` accumulates. -/
def parseVersion : List (List Char) → Option (List (List Char × List Char))
  | [] => some []
  | line :: rest =>
    match parseVersionLine line with
    | LineParse.bad => none
    | LineParse.skip => parseVersion rest
    | LineParse.entry k v => (parseVersion rest).map fun kvs => (k, v) :: kvs

/-! ### mqtt/scripts/test_mqtt_emqx.py : published payloads -/

/-- JSON scalar values used by the smoke-test payloads. -/
inductive JVal where
  | str (s : String)
  | int (n : ℤ)
  | rat (q : ℚ)
deriving DecidableEq

/-- The heartbeat payload of `main` after `publish_test_message` adds
`message['timestamp'] = datetime.now().isoformat()`; `ts` is the
timestamp string of the run. -/
def heartbeatPayload (ts : String) : List (String × JVal) :=
  [("device_id", JVal.str "rapidreach_test"),
   ("status", JVal.str "alive"),
   ("uptime", JVal.int 12345),
   ("memory_free", JVal.int 85),
   ("signal_strength", JVal.int (-67)),
   ("timestamp", JVal.str ts)]

/-- The status payload of `main`, likewise with the run's timestamp. -/
def statusPayload (ts : String) : List (String × JVal) :=
  [("device_id", JVal.str "rapidreach_test"),
   ("firmware_version", JVal.str "1.0.0"),
   ("hardware_version", JVal.str "rev_a"),
   ("temperature", JVal.rat (47/2)),
   ("battery_level", JVal.int 87),
   ("timestamp", JVal.str ts)]

/-- A payload with its `timestamp` field removed. -/
def dropTimestamp (p : List (String × JVal)) : List (String × JVal) :=
  p.filter fun kv => kv.1 != "timestamp"

/-! ### Helper lemmas -/

/-- `test_passed` is only ever cleared: one loop step is conjunction with
the step's own verdict. -/
theorem stepPassed_factor (e : List String) (p : Bool) (r : String) :
    stepPassed e p r = (p && stepPassed e true r) := by
  cases p with
  | true => simp
  | false =>
    simp only [Bool.false_and]
    unfold stepPassed
    split
    · split <;> rfl
    · rfl

/-- The `run_test_case` fold is the conjunction of the per-command
verdicts. -/
theorem foldl_stepPassed (e : List String) (l : List String) (b : Bool) :
    l.foldl (fun p r => stepPassed e p r) b
      = (b && l.all fun r => stepPassed e true r) := by
  induction l generalizing b with
  | nil => simp
  | cons r t ih =>
    simp only [List.foldl_cons, List.all_cons]
    rw [ih, stepPassed_factor, Bool.and_assoc]

/-- With a non-empty `expected` list, one command's verdict is: the
response is non-empty and some expected token occurs case-insensitively. -/
theorem stepPassed_true_iff (e : List String) (r : String) (h : e ≠ []) :
    stepPassed e true r = true ↔
      (r.isEmpty = false ∧ ∃ x ∈ e, isSubCI x r = true) := by
  have he : e.isEmpty = false := by
    cases e with
    | nil => exact absurd rfl h
    | cons a t => rfl
  unfold stepPassed
  cases hr : r.isEmpty with
  | true => simp [hr]
  | false =>
    cases hf : e.any (fun x => isSubCI x r) with
    | true =>
      have hex := List.any_eq_true.mp hf
      simp [hr, hf, hex]
    | false =>
      simp only [hr, hf, Bool.not_false, he, Bool.and_self, if_true]
      constructor
      · intro hc
        exact absurd hc (by simp)
      · rintro ⟨-, x, hx, hsub⟩
        exact absurd hsub (by simpa using List.any_eq_false.mp hf x hx)

/-- Every keyword of `very_complex_keywords` is already lowercase. -/
theorem lower_fix_very : ∀ k ∈ very_complex_keywords, lowerStr k = k := by
  decide

/-- Every keyword of `complex_keywords` is already lowercase. -/
theorem lower_fix_complex : ∀ k ∈ complex_keywords, lowerStr k = k := by
  decide

/-- Every keyword of `simple_keywords` is already lowercase. -/
theorem lower_fix_simple : ∀ k ∈ simple_keywords, lowerStr k = k := by
  decide

/-- For a list of lowercase keywords, the script's plain substring test
against the lowercased summary is exactly case-insensitive occurrence. -/
theorem any_pyIn_iff (kws : List String) (s : String)
    (hfix : ∀ k ∈ kws, lowerStr k = k) :
    ((kws.any fun k => pyIn k (lowerStr s)) = true ↔
      ∃ k ∈ kws, isSubCI k s = true) := by
  rw [List.any_eq_true]
  constructor
  · rintro ⟨k, hk, hp⟩
    refine ⟨k, hk, ?_⟩
    unfold isSubCI
    rw [hfix k hk]
    exact hp
  · rintro ⟨k, hk, hp⟩
    refine ⟨k, hk, ?_⟩
    unfold isSubCI at hp
    rw [hfix k hk] at hp
    exact hp

/-- Half-even rounding moves a rational by at most 1/2. -/
theorem rndHalfEven_close (q : ℚ) : |(rndHalfEven q : ℚ) - q| ≤ 1/2 := by
  have h0 : ((⌊q⌋ : ℤ) : ℚ) ≤ q := Int.floor_le q
  have h1 : q < ⌊q⌋ + 1 := Int.lt_floor_add_one q
  unfold rndHalfEven
  split
  · rename_i h
    rw [abs_sub_comm, abs_of_nonneg (by linarith)]
    linarith
  · rename_i h
    split
    · rename_i h2
      split
      · rw [abs_sub_comm, abs_of_nonneg (by linarith)]
        linarith
      · push_cast
        rw [abs_of_nonneg (by linarith)]
        linarith
    · rename_i h2
      have h3 : (1:ℚ)/2 < q - ⌊q⌋ :=
        lt_of_le_of_ne (not_lt.mp h) (fun e => h2 e.symm)
      push_cast
      rw [abs_of_nonneg (by linarith)]
      linarith

/-- `round(x, 1)` moves a rational by at most 1/20. -/
theorem round1_close (q : ℚ) : |round1 q - q| ≤ 1/20 := by
  have h := rndHalfEven_close (q * 10)
  unfold round1
  have he : (rndHalfEven (q * 10) : ℚ) / 10 - q
      = ((rndHalfEven (q * 10) : ℚ) - q * 10) / 10 := by
    ring
  rw [he, abs_div]
  have h10 : |(10 : ℚ)| = 10 := by norm_num
  rw [h10]
  linarith

/-- Triangle-inequality bound for four weighted rounding errors. -/
theorem sum_round_err (p q r s A B C D : ℚ)
    (hp : 0 ≤ p) (hq : 0 ≤ q) (hr : 0 ≤ r) (hs : 0 ≤ s)
    (hA : |A| ≤ 1/20) (hB : |B| ≤ 1/20) (hC : |C| ≤ 1/20) (hD : |D| ≤ 1/20) :
    |p * A + q * B + r * C + s * D| ≤ (p + q + r + s) / 20 := by
  have t1 : |p*A + q*B + r*C + s*D| ≤ |p*A + q*B + r*C| + |s*D| := abs_add _ _
  have t2 : |p*A + q*B + r*C| ≤ |p*A + q*B| + |r*C| := abs_add _ _
  have t3 : |p*A + q*B| ≤ |p*A| + |q*B| := abs_add _ _
  have b1 : |p*A| ≤ p * (1/20) := by
    rw [abs_mul, abs_of_nonneg hp]
    exact mul_le_mul_of_nonneg_left hA hp
  have b2 : |q*B| ≤ q * (1/20) := by
    rw [abs_mul, abs_of_nonneg hq]
    exact mul_le_mul_of_nonneg_left hB hq
  have b3 : |r*C| ≤ r * (1/20) := by
    rw [abs_mul, abs_of_nonneg hr]
    exact mul_le_mul_of_nonneg_left hC hr
  have b4 : |s*D| ≤ s * (1/20) := by
    rw [abs_mul, abs_of_nonneg hs]
    exact mul_le_mul_of_nonneg_left hD hs
  linarith

/-- `success_count` never exceeds the number of processed keys. -/
theorem updateSuccessCount_le (keys : List String) (status : String → ℕ) :
    updateSuccessCount keys status ≤ keys.length := by
  unfold updateSuccessCount
  suffices h : ∀ (l : List String) (n : ℕ),
      l.foldl (fun s k => if status k = 204 then s + 1 else s) n
        ≤ n + l.length by
    simpa using h keys 0
  intro l
  induction l with
  | nil => intro n; simp
  | cons a t ih =>
    intro n
    simp only [List.foldl_cons, List.length_cons]
    by_cases hc : status a = 204
    · rw [if_pos hc]
      have := ih (n + 1)
      omega
    · rw [if_neg hc]
      have := ih n
      omega

/-- Head unfolding of the copy loop. -/
theorem preparedBinaries_cons (b : Board) (t : List Board) (v : String) :
    preparedBinaries (b :: t) v
      = if b.hasRapidFwBin || b.hasPlainBin
        then targetFilename b.boardName v :: preparedBinaries t v
        else preparedBinaries t v := by
  unfold preparedBinaries binChoice
  by_cases h1 : b.hasRapidFwBin = true <;> by_cases h2 : b.hasPlainBin = true <;>
    simp [h1, h2, List.filterMap_cons]

/-! ### Claim theorems -/

/-- C1: every test case the runner executes has a non-empty expected-token
list, and for such a test case `run_test_case` reports passed exactly when,
for every command, the response text collected in that command's wait
window is non-empty and at least one expected token occurs in it as a
case-insensitive substring. -/
theorem C1_run_test_case_pass_iff :
    (∀ p ∈ testCases, p.2.expected ≠ []) ∧
    (∀ (tc : TestInfo) (responses : List String), tc.expected ≠ [] →
      responses.length = tc.commands.length →
      (run_test_case tc responses = true ↔
        ∀ r ∈ responses,
          r.isEmpty = false ∧ ∃ x ∈ tc.expected, isSubCI x r = true)) := by
  constructor
  · decide
  · intro tc responses hne _
    unfold run_test_case
    rw [foldl_stepPassed, Bool.true_and, List.all_eq_true]
    constructor
    · intro hall r hr
      exact (stepPassed_true_iff tc.expected r hne).mp (hall r hr)
    · intro hall r hr
      exact (stepPassed_true_iff tc.expected r hne).mpr (hall r hr)

/-- C1 witness: the audio-playback test case passes on a concrete run
whose two responses each contain one of the expected tokens. -/
theorem C1_run_test_case_pass_iff_w :
    run_test_case
      ⟨"Test audio playback with CLI commands",
       ["rapidreach audio play /path/to/test.wav", "rapidreach audio status"],
       ["Playing", "Status:"], 5⟩
      ["Now PLAYING test.wav", "Status: idle"] = true := by
  apply (C1_run_test_case_pass_iff.2
    ⟨"Test audio playback with CLI commands",
     ["rapidreach audio play /path/to/test.wav", "rapidreach audio status"],
     ["Playing", "Status:"], 5⟩
    ["Now PLAYING test.wav", "Status: idle"] (by decide) (by decide)).mpr
  decide

/-- C2: the keyword classifier assigns exactly one of the four tiers, by
case-insensitive substring matching of the fixed keyword lists against the
lowercased summary, with precedence very-complex, then complex, then
simple, and medium as default. -/
theorem C2_categorize_tiers (s : String) :
    (categorize s = Tier.veryComplex ↔
      ∃ k ∈ very_complex_keywords, isSubCI k s = true) ∧
    (categorize s = Tier.complex ↔
      ¬(∃ k ∈ very_complex_keywords, isSubCI k s = true) ∧
      ∃ k ∈ complex_keywords, isSubCI k s = true) ∧
    (categorize s = Tier.simple ↔
      ¬(∃ k ∈ very_complex_keywords, isSubCI k s = true) ∧
      ¬(∃ k ∈ complex_keywords, isSubCI k s = true) ∧
      ∃ k ∈ simple_keywords, isSubCI k s = true) ∧
    (categorize s = Tier.medium ↔
      ¬(∃ k ∈ very_complex_keywords, isSubCI k s = true) ∧
      ¬(∃ k ∈ complex_keywords, isSubCI k s = true) ∧
      ¬(∃ k ∈ simple_keywords, isSubCI k s = true)) := by
  have hv := any_pyIn_iff very_complex_keywords s lower_fix_very
  have hc := any_pyIn_iff complex_keywords s lower_fix_complex
  have hs := any_pyIn_iff simple_keywords s lower_fix_simple
  unfold categorize
  by_cases h1 : (very_complex_keywords.any fun k => pyIn k (lowerStr s)) = true
  · have hv1 := hv.mp h1
    simp [h1, hv1]
  · have hv0 : ¬∃ k ∈ very_complex_keywords, isSubCI k s = true :=
      fun he => h1 (hv.mpr he)
    by_cases h2 : (complex_keywords.any fun k => pyIn k (lowerStr s)) = true
    · have hc1 := hc.mp h2
      simp [h1, h2, hv0, hc1]
    · have hc0 : ¬∃ k ∈ complex_keywords, isSubCI k s = true :=
        fun he => h2 (hc.mpr he)
      by_cases h3 : (simple_keywords.any fun k => pyIn k (lowerStr s)) = true
      · have hs1 := hs.mp h3
        simp [h1, h2, h3, hv0, hc0, hs1]
      · have hs0 : ¬∃ k ∈ simple_keywords, isSubCI k s = true :=
          fun he => h3 (hs.mpr he)
        simp [h1, h2, h3, hv0, hc0, hs0]

/-- C9: the update loop's re-classification charges each task exactly the
per-tier hours of the tier the initial categorization counted it under. -/
theorem C9_two_passes_agree (s : String) (sh mh ch vh : ℚ) :
    assignHours s sh mh ch vh = tierHours (categorize s) sh mh ch vh := by
  by_cases h1 : (very_complex_keywords.any fun k => pyIn k (lowerStr s)) = true <;>
  by_cases h2 : (complex_keywords.any fun k => pyIn k (lowerStr s)) = true <;>
  by_cases h3 : (simple_keywords.any fun k => pyIn k (lowerStr s)) = true <;>
    simp [assignHours, categorize, tierHours, h1, h2, h3]

/-- C3 counterexample: with 31 very-complex tasks and nothing else, the
rounded per-task allocation is 3.9h and the total written back is 120.9h,
which exceeds the 120-hour budget. -/
theorem C3_budget_cx :
    total_hours 0 0 0 31 = 1209/10 ∧ (120 : ℚ) < total_hours 0 0 0 31 := by
  constructor <;>
    norm_num [total_hours, very_complex_hours, simple_hours, medium_hours,
      complex_hours, scaling_factor, estimated_total, round1, rndHalfEven]

/-- C3 (amended): for a non-empty task set the per-tier allocations are the
base hours 1.5/2.5/3.5/4.5 times 120 divided by the estimated total,
rounded to one decimal (ties to even); the resulting total of per-task
hours differs from 120 by at most 0.05 per task, and so can exceed 120. -/
theorem C3_scaled_hours (ns nm nc nv : ℕ)
    (h : 0 < estimated_total ns nm nc nv) :
    simple_hours ns nm nc nv
      = round1 ((3/2) * (120 / estimated_total ns nm nc nv)) ∧
    medium_hours ns nm nc nv
      = round1 ((5/2) * (120 / estimated_total ns nm nc nv)) ∧
    complex_hours ns nm nc nv
      = round1 ((7/2) * (120 / estimated_total ns nm nc nv)) ∧
    very_complex_hours ns nm nc nv
      = round1 ((9/2) * (120 / estimated_total ns nm nc nv)) ∧
    |total_hours ns nm nc nv - 120| ≤ ((ns : ℚ) + nm + nc + nv) / 20 := by
  have hk : scaling_factor ns nm nc nv = 120 / estimated_total ns nm nc nv := by
    unfold scaling_factor
    rw [if_pos h]
  have hT0 : estimated_total ns nm nc nv ≠ 0 := ne_of_gt h
  refine ⟨by unfold simple_hours; rw [hk], by unfold medium_hours; rw [hk],
    by unfold complex_hours; rw [hk], by unfold very_complex_hours; rw [hk], ?_⟩
  have hsum : (ns : ℚ) * ((3/2) * (120 / estimated_total ns nm nc nv))
      + (nm : ℚ) * ((5/2) * (120 / estimated_total ns nm nc nv))
      + (nc : ℚ) * ((7/2) * (120 / estimated_total ns nm nc nv))
      + (nv : ℚ) * ((9/2) * (120 / estimated_total ns nm nc nv)) = 120 := by
    have hTdef : (ns : ℚ) * (3/2) + (nm : ℚ) * (5/2) + (nc : ℚ) * (7/2)
        + (nv : ℚ) * (9/2) = estimated_total ns nm nc nv := rfl
    calc (ns : ℚ) * ((3/2) * (120 / estimated_total ns nm nc nv))
          + (nm : ℚ) * ((5/2) * (120 / estimated_total ns nm nc nv))
          + (nc : ℚ) * ((7/2) * (120 / estimated_total ns nm nc nv))
          + (nv : ℚ) * ((9/2) * (120 / estimated_total ns nm nc nv))
        = ((ns : ℚ) * (3/2) + (nm : ℚ) * (5/2) + (nc : ℚ) * (7/2)
            + (nv : ℚ) * (9/2)) * (120 / estimated_total ns nm nc nv) := by
          ring
      _ = estimated_total ns nm nc nv * (120 / estimated_total ns nm nc nv) := by
          rw [hTdef]
      _ = 120 := by
          rw [mul_comm, div_mul_cancel₀ _ hT0]
  have e1 := round1_close ((3/2) * (120 / estimated_total ns nm nc nv))
  have e2 := round1_close ((5/2) * (120 / estimated_total ns nm nc nv))
  have e3 := round1_close ((7/2) * (120 / estimated_total ns nm nc nv))
  have e4 := round1_close ((9/2) * (120 / estimated_total ns nm nc nv))
  have habs : total_hours ns nm nc nv - 120
      = (ns : ℚ) * (round1 ((3/2) * (120 / estimated_total ns nm nc nv))
          - (3/2) * (120 / estimated_total ns nm nc nv))
      + (nm : ℚ) * (round1 ((5/2) * (120 / estimated_total ns nm nc nv))
          - (5/2) * (120 / estimated_total ns nm nc nv))
      + (nc : ℚ) * (round1 ((7/2) * (120 / estimated_total ns nm nc nv))
          - (7/2) * (120 / estimated_total ns nm nc nv))
      + (nv : ℚ) * (round1 ((9/2) * (120 / estimated_total ns nm nc nv))
          - (9/2) * (120 / estimated_total ns nm nc nv)) := by
    unfold total_hours simple_hours medium_hours complex_hours
      very_complex_hours
    rw [hk]
    linear_combination hsum
  rw [habs]
  have hb := sum_round_err ((ns : ℚ)) ((nm : ℚ)) ((nc : ℚ)) ((nv : ℚ))
    _ _ _ _ (Nat.cast_nonneg ns) (Nat.cast_nonneg nm) (Nat.cast_nonneg nc)
    (Nat.cast_nonneg nv) e1 e2 e3 e4
  exact hb

/-- C3 witness: with one task in each tier the estimated total is 12h, the
hypothesis holds, and the total deviates from 120 by at most 4/20. -/
theorem C3_scaled_hours_w :
    0 < estimated_total 1 1 1 1 ∧
    |total_hours 1 1 1 1 - 120| ≤ (((1:ℕ) : ℚ) + ((1:ℕ) : ℚ) + ((1:ℕ) : ℚ)
      + ((1:ℕ) : ℚ)) / 20 := by
  have h : 0 < estimated_total 1 1 1 1 := by norm_num [estimated_total]
  exact ⟨h, (C3_scaled_hours 1 1 1 1 h).2.2.2.2⟩

/-- C4 counterexample: a 500 status on the initial To Do search makes the
time-estimate updater terminate (`exit(1)`, modelled by `none`) rather
than continue. -/
theorem C4_search_exit_cx : searchTodo 500 ["RDP-100"] = none := rfl

/-- C4 (amended): per-issue update failures are printed and processing
continues (every key is processed, successes counted only on 204), and the
runner's transition logic is unaffected by a failed worklog POST; but the
initial To Do search continues only on status 200 and otherwise terminates
the script. -/
theorem C4_continue_on_failure (keys : List String) (status : String → ℕ)
    (s : ℕ) (issues : List String) (p : Bool) (net : JiraNet) (w : ℕ) :
    ((updateResults keys status).length = keys.length ∧
      updateSuccessCount keys status ≤ keys.length) ∧
    (searchTodo s issues = some issues ↔ s = 200) ∧
    (update_jira_task p
        ⟨w, net.transitionsStatus, net.transitions,
          net.transitionPostStatus⟩).transitionPosted
      = (update_jira_task p net).transitionPosted := by
  refine ⟨⟨by simp [updateResults], updateSuccessCount_le keys status⟩, ?_, rfl⟩
  unfold searchTodo
  by_cases hs : s = 200
  · simp [hs]
  · simp [hs]

/-- C5: the packager copies exactly the boards that have a signed binary,
in board order, each under the name `board_rapidreach-fw_version.bin`;
the `rapidreach-fw` path is preferred over the plain `zephyr` path; the
version string is built from the VERSION descriptor values; boards with no
binary are skipped. -/
theorem C5_packager (boards : List Board) (v : String) :
    preparedBinaries boards v
      = (boards.filter fun b => b.hasRapidFwBin || b.hasPlainBin).map
          (fun b => targetFilename b.boardName v) ∧
    (∀ b : Board, b.hasRapidFwBin = true → binChoice b = some BinPath.rapidFw) ∧
    (∀ ma mi pa : String,
      targetFilename "board" (versionString ma mi pa)
        = "board" ++ "_rapidreach-fw_" ++ ("V" ++ ma ++ "." ++ mi ++ "." ++ pa)
          ++ ".bin") ∧
    (∀ b : Board, binChoice b = none ↔
      b.hasRapidFwBin = false ∧ b.hasPlainBin = false) := by
  refine ⟨?_, ?_, ?_, ?_⟩
  · induction boards with
    | nil => rfl
    | cons b t ih =>
      rw [preparedBinaries_cons, List.filter_cons]
      by_cases hb : (b.hasRapidFwBin || b.hasPlainBin) = true
      · simp [hb, ih]
      · simp [hb, ih]
  · intro b hb
    unfold binChoice
    rw [if_pos hb]
  · intro ma mi pa
    rfl
  · intro b
    unfold binChoice
    by_cases h1 : b.hasRapidFwBin = true <;> by_cases h2 : b.hasPlainBin = true <;>
      simp [h1, h2]

/-- C5 witness: three concrete boards, one with both binaries, one with
only the fallback binary, one with none; the first two are copied, the
third skipped. -/
theorem C5_packager_w :
    preparedBinaries
        [⟨"speaker", true, true⟩, ⟨"mic", false, true⟩, ⟨"bare", false, false⟩]
        (versionString "1" "2" "3")
      = ["speaker_rapidreach-fw_V1.2.3.bin", "mic_rapidreach-fw_V1.2.3.bin"] ∧
    binChoice ⟨"speaker", true, true⟩ = some BinPath.rapidFw := by
  have h := C5_packager
    [⟨"speaker", true, true⟩, ⟨"mic", false, true⟩, ⟨"bare", false, false⟩]
    (versionString "1" "2" "3")
  refine ⟨?_, h.2.1 ⟨"speaker", true, true⟩ rfl⟩
  rw [h.1]
  rfl

/-- C6 counterexample: a test that elapsed 2.7 minutes is logged with
timeSpent 2 minutes, not its measured elapsed 2.7 minutes. -/
theorem C6_timespent_cx : ((loggedMinutes (27/10) : ℚ)) ≠ 27/10 := by
  norm_num [loggedMinutes, pyInt]

/-- C6 (amended): every executed test case is logged, with timeSpent equal
to the floor of its measured elapsed minutes clamped below at one minute
(whole minutes, at least one). -/
theorem C6_timespent (elapsed : ℚ) :
    loggedMinutes elapsed = ⌊max elapsed 1⌋ ∧ 1 ≤ loggedMinutes elapsed := by
  have hmax : (0:ℚ) ≤ max elapsed 1 :=
    le_trans zero_le_one (le_max_right elapsed 1)
  constructor
  · unfold loggedMinutes pyInt
    rw [if_pos hmax]
  · unfold loggedMinutes pyInt
    rw [if_pos hmax]
    exact Int.le_floor.mpr (by exact_mod_cast le_max_right elapsed 1)

/-- C7: the runner fetches an issue's transitions exactly when that
issue's test case passed, and a transition POST is only ever sent for a
transition of the issue whose name equals "done" case-insensitively. -/
theorem C7_done_transition (p : Bool) (net : JiraNet) :
    ((update_jira_task p net).transitionsFetched = p) ∧
    (∀ tid, (update_jira_task p net).transitionPosted = some tid →
      p = true ∧ ∃ t ∈ net.transitions,
        lowerStr t.transName = "done" ∧ t.transId = tid) := by
  refine ⟨rfl, ?_⟩
  intro tid hpost
  unfold update_jira_task at hpost
  simp only at hpost
  cases p with
  | false => simp at hpost
  | true =>
    refine ⟨rfl, ?_⟩
    rw [if_pos rfl] at hpost
    cases hs : (net.transitionsStatus == 200) with
    | false =>
      rw [hs] at hpost
      simp at hpost
    | true =>
      rw [hs] at hpost
      simp only [if_true] at hpost
      rw [findDoneTransition, Option.map_eq_some'] at hpost
      obtain ⟨t, hfind, hid⟩ := hpost
      refine ⟨t, List.mem_of_find?_eq_some hfind, ?_, hid⟩
      have hpred := List.find?_some hfind
      exact beq_iff_eq.mp hpred

/-- C7 witness: with a passing test and a transitions list containing
"Done", the POSTed transition id is that of the Done transition, which is
indeed named "done" case-insensitively. -/
theorem C7_done_transition_w :
    true = true ∧
    ∃ t ∈ [(⟨"In Progress", "11"⟩ : Transition), ⟨"Done", "31"⟩],
      lowerStr t.transName = "done" ∧ t.transId = "31" :=
  (C7_done_transition true
    ⟨201, 200, [⟨"In Progress", "11"⟩, ⟨"Done", "31"⟩], 204⟩).2 "31" (by decide)

/-- C8 counterexample: two runs whose timestamps differ publish different
heartbeat and status payloads, so the published JSON payloads are not
identical across runs. -/
theorem C8_payload_cx :
    heartbeatPayload "2025-01-01T00:00:00" ≠ heartbeatPayload "2025-01-02T00:00:00"
    ∧ statusPayload "2025-01-01T00:00:00" ≠ statusPayload "2025-01-02T00:00:00" := by
  constructor
  · decide
  · intro h
    simp [statusPayload] at h

/-- C8 (amended): across any two runs the two published payloads agree on
every field except the `timestamp` field added by `publish_test_message`;
with `timestamp` removed, both payloads are fixed. -/
theorem C8_payload_fixed (ts1 ts2 : String) :
    dropTimestamp (heartbeatPayload ts1) = dropTimestamp (heartbeatPayload ts2)
    ∧ dropTimestamp (statusPayload ts1) = dropTimestamp (statusPayload ts2) := by
  constructor <;> rfl

/-- `split("=")` yields one more part than there are `=` characters. -/
theorem splitEq_length (l : List Char) :
    (splitEq l).length = l.count '=' + 1 := by
  induction l with
  | nil => rfl
  | cons c rest ih =>
    by_cases hc : c = '='
    · subst hc
      simp [splitEq, List.count_cons, ih]
    · have hsplit : splitEq (c :: rest)
          = match splitEq rest with
            | [] => [[c]]
            | h :: t => (c :: h) :: t := by
        simp [splitEq, hc]
      cases hsp : splitEq rest with
      | nil =>
        rw [hsp] at ih
        simp at ih
      | cons a t =>
        rw [hsp] at hsplit ih
        rw [hsplit]
        simp only [List.length_cons] at ih ⊢
        rw [List.count_cons]
        simp [hc]
        omega

/-- Dropping leading whitespace does not change the `=` count. -/
theorem count_dropWhile_ws (l : List Char) :
    (l.dropWhile Char.isWhitespace).count '=' = l.count '=' := by
  induction l with
  | nil => rfl
  | cons c rest ih =>
    by_cases hw : Char.isWhitespace c = true
    · have hne : c ≠ '=' := by
        intro he
        subst he
        exact absurd hw (by decide)
      rw [List.dropWhile_cons, if_pos hw, ih, List.count_cons]
      simp [hne]
    · rw [List.dropWhile_cons, if_neg hw]

/-- `strip()` does not change the `=` count. -/
theorem count_pyStrip (l : List Char) :
    (pyStrip l).count '=' = l.count '=' := by
  unfold pyStrip
  rw [List.count_reverse, count_dropWhile_ws, List.count_reverse,
    count_dropWhile_ws]

/-- One VERSION line raises (two-value unpacking fails) exactly when it
contains `=` but not exactly one `=`. -/
theorem parseVersionLine_bad_iff (l : List Char) :
    parseVersionLine l = LineParse.bad ↔
      (l.contains '=' = true ∧ l.count '=' ≠ 1) := by
  unfold parseVersionLine
  by_cases hc : l.contains '=' = true
  · rw [if_pos hc]
    have hlen : (splitEq (pyStrip l)).length = l.count '=' + 1 := by
      rw [splitEq_length, count_pyStrip]
    cases hsp : splitEq (pyStrip l) with
    | nil =>
      rw [hsp] at hlen
      simp at hlen
    | cons a t =>
      cases t with
      | nil =>
        rw [hsp] at hlen
        simp only [List.length_cons, List.length_nil] at hlen
        simp [hc]
        refine ⟨by simpa using hc, ?_⟩
        omega
      | cons b t2 =>
        cases t2 with
        | nil =>
          rw [hsp] at hlen
          simp only [List.length_cons, List.length_nil] at hlen
          simp [hc]
          intro hmem
          omega
        | cons c2 t3 =>
          rw [hsp] at hlen
          simp only [List.length_cons] at hlen
          simp [hc]
          refine ⟨by simpa using hc, ?_⟩
          omega
  · rw [if_neg hc]
    constructor
    · intro he
      exact absurd he (by decide)
    · rintro ⟨hcon, -⟩
      exact absurd hcon hc

/-- A line that does not raise satisfies the exactly-one-`=` condition. -/
theorem parseVersionLine_cond (l : List Char)
    (h : parseVersionLine l ≠ LineParse.bad) :
    l.contains '=' = true → l.count '=' = 1 := by
  intro hc
  by_contra hcnt
  exact h ((parseVersionLine_bad_iff l).mpr ⟨hc, hcnt⟩)

/-- The whole-file parse succeeds exactly when every `=`-containing line
has exactly one `=`. -/
theorem parseVersion_ok_iff (lines : List (List Char)) :
    (parseVersion lines).isSome = true ↔
      ∀ l ∈ lines, l.contains '=' = true → l.count '=' = 1 := by
  induction lines with
  | nil => simp [parseVersion]
  | cons l rest ih =>
    rw [List.forall_mem_cons]
    cases hpl : parseVersionLine l with
    | bad =>
      obtain ⟨hcon, hcnt⟩ := (parseVersionLine_bad_iff l).mp hpl
      simp only [parseVersion, hpl, Option.isSome_none]
      constructor
      · intro hfalse
        exact absurd hfalse (by decide)
      · rintro ⟨hl, -⟩
        exact absurd (hl hcon) hcnt
    | skip =>
      have hl : l.contains '=' = true → l.count '=' = 1 :=
        parseVersionLine_cond l (by rw [hpl]; intro he; cases he)
      simp only [parseVersion, hpl]
      rw [ih]
      exact ⟨fun hr => ⟨hl, hr⟩, fun hb => hb.2⟩
    | entry k v =>
      have hl : l.contains '=' = true → l.count '=' = 1 :=
        parseVersionLine_cond l (by rw [hpl]; intro he; cases he)
      simp only [parseVersion, hpl]
      have hmap : (Option.map (fun kvs => (k, v) :: kvs)
          (parseVersion rest)).isSome = (parseVersion rest).isSome := by
        cases parseVersion rest <;> rfl
      rw [hmap, ih]
      exact ⟨fun hr => ⟨hl, hr⟩, fun hb => hb.2⟩

/-- C10: the VERSION parse is not total: on a file whose three needed keys
are present but which has one extra line with two `=` characters, the
two-value unpacking raises (modelled by `none`); the same file without
that line parses; and in general the parse succeeds exactly when every
line containing `=` contains exactly one `=`. -/
theorem C10_version_parse :
    parseVersion ["VERSION_MAJOR = 1".data, "VERSION_MINOR = 2".data,
        "PATCHLEVEL = 3".data, "EXTRAVERSION = rc1=x".data] = none ∧
    parseVersion ["VERSION_MAJOR = 1".data, "VERSION_MINOR = 2".data,
        "PATCHLEVEL = 3".data]
      = some [("VERSION_MAJOR".data, "1".data),
          ("VERSION_MINOR".data, "2".data), ("PATCHLEVEL".data, "3".data)] ∧
    (∀ lines : List (List Char),
      (parseVersion lines).isSome = true ↔
        ∀ l ∈ lines, l.contains '=' = true → l.count '=' = 1) := by
  exact ⟨by decide, by decide, parseVersion_ok_iff⟩

/-- C10 witness: a one-line file with a single `=` parses successfully,
by the success characterization. -/
theorem C10_version_parse_w :
    (parseVersion ["VERSION_MAJOR=9".data]).isSome = true :=
  (C10_version_parse.2.2 ["VERSION_MAJOR=9".data]).mpr (by decide)

end RapidReach
